import Mathlib

/-!
Verification development for the go-toggl repository.

Two components are embedded:
* the TimeEntry lifecycle (session.go): the value type, the tag set
  operations, and the mutators SetDuration, SetStartTime, SetStopTime,
  together with the Copy operation and the UnstopTimeEntry control flow;
* the TTL-bounded resource cache (the cache package): the partitioned
  store, the expiry sweep, Get, GetMap, GetList, Set, Clear, SetTTL.

Modelling conventions:
* time instants are modelled at whole-second granularity as Int
  (every arithmetic step the claims mention is in whole seconds);
* Go nil-able pointers to instants become Option Int; a nil-pointer
  dereference (a Go panic) is modelled by the mutator returning none;
* a mutator that in Go mutates its receiver and returns an error value
  here returns the pair of the final receiver state and an optional
  error message;
* Go maps become association lists (nil map and missing key collapse to
  a failed lookup, exactly as a Go map read does); the outer map of the
  cache distinguishes a nil partition (none) from an allocated empty
  partition (some []), because the Go code tests those with an explicit
  nil check;
* for the Copy claim, which is about pointer aliasing, a second model of
  the entry carries heap addresses for the start and stop instants, with
  an explicit heap.
-/

namespace Toggl

/-- TimeEntry from session.go: the start and stop pointers are Option Int
(whole-second instants), tags a list of strings, duration an Int. -/
structure TimeEntry where
  wid : Int
  id : Int
  pid : Option Int
  tid : Option Int
  description : String
  stop : Option Int
  start : Option Int
  tags : List String
  duration : Int
  durOnly : Bool
  billable : Bool
deriving DecidableEq, Repr

/-- IsRunning from session.go: true iff the duration is strictly negative. -/
def TimeEntry.IsRunning (e : TimeEntry) : Bool :=
  e.duration < 0

/-- indexOfTag from session.go: index of the first occurrence of a tag in
the list, -1 when absent. -/
def indexOfTag (tag : String) : List String → Int
  | [] => -1
  | t :: ts =>
    if t = tag then 0
    else
      let r := indexOfTag tag ts
      if r = -1 then -1 else r + 1

/-- HasTag from session.go: membership test through indexOfTag. -/
def TimeEntry.HasTag (e : TimeEntry) (tag : String) : Bool :=
  indexOfTag tag e.tags != -1

/-- AddTag from session.go: append the tag unless already present. -/
def TimeEntry.AddTag (e : TimeEntry) (tag : String) : TimeEntry :=
  if e.HasTag tag then e else { e with tags := e.tags ++ [tag] }

/-- RemoveTag from session.go: when the tag is present at first index i,
the tag list becomes tags[:i] ++ tags[i+1:]. -/
def TimeEntry.RemoveTag (e : TimeEntry) (tag : String) : TimeEntry :=
  let i := indexOfTag tag e.tags
  if i = -1 then e
  else { e with tags := e.tags.take i.toNat ++ e.tags.drop (i.toNat + 1) }

/-- SetDuration from session.go. On a running entry it returns the
invalid-state error and leaves the receiver as it was; otherwise it sets
the duration and recomputes the stop instant as start + duration,
dereferencing the start pointer (none models the Go panic on nil). -/
def TimeEntry.SetDuration (e : TimeEntry) (duration : Int) :
    Option (TimeEntry × Option String) :=
  if e.IsRunning then some (e, some "TimeEntry must be stopped")
  else
    match e.start with
    | none => none
    | some s => some ({ e with duration := duration, stop := some (s + duration) }, none)

/-- SetStartTime from session.go. The start pointer is set first; when the
entry is not running, updateEnd = true recomputes the stop instant as
start + duration, updateEnd = false recomputes the duration as
stop - start, dereferencing the stop pointer (none models the panic). -/
def TimeEntry.SetStartTime (e : TimeEntry) (start : Int) (updateEnd : Bool) :
    Option TimeEntry :=
  let e1 := { e with start := some start }
  if e1.IsRunning then some e1
  else
    if updateEnd then some { e1 with stop := some (start + e1.duration) }
    else
      match e1.stop with
      | none => none
      | some p => some { e1 with duration := p - start }

/-- SetStopTime from session.go. On a running entry it returns the
invalid-state error and leaves the receiver as it was; otherwise it sets
the stop instant and recomputes the duration as stop - start,
dereferencing the start pointer (none models the panic). -/
def TimeEntry.SetStopTime (e : TimeEntry) (stop : Int) :
    Option (TimeEntry × Option String) :=
  if e.IsRunning then some (e, some "TimeEntry must be stopped")
  else
    match e.start with
    | none => none
    | some s => some ({ e with stop := some stop, duration := stop - s }, none)

/-- A successful lifecycle call, as the spec sequences them: setDur and
setStop succeed when the source function returns a state with no error
(and no panic), setStart succeeds whenever the source function does not
panic. -/
inductive LifecycleOp where
  | setDur (d : Int)
  | setStart (t : Int) (updateEnd : Bool)
  | setStop (t : Int)
deriving DecidableEq, Repr

/-- Apply one lifecycle call to an entry; some result iff the call was
successful (no invalid-state error, no panic). -/
def applyOp (e : TimeEntry) : LifecycleOp → Option TimeEntry
  | .setDur d =>
    match e.SetDuration d with
    | some (e1, none) => some e1
    | _ => none
  | .setStart t u => e.SetStartTime t u
  | .setStop t =>
    match e.SetStopTime t with
    | some (e1, none) => some e1
    | _ => none

/-- Run a list of lifecycle calls in order; some result iff every call
succeeded. -/
def runOps (e : TimeEntry) : List LifecycleOp → Option TimeEntry
  | [] => some e
  | op :: ops =>
    match applyOp e op with
    | none => none
    | some e1 => runOps e1 ops

/-! ### Heap model of Copy

Copy in session.go does a struct copy (so the Start and Stop pointers of
the new entry are the very pointers of the receiver), allocates a fresh
backing array for Tags with the same elements, and then writes
*newEntry.Start = *e.Start and *newEntry.Stop = *e.Stop through the
(aliased) pointers. The heap model makes the pointer identity explicit:
an instant pointer is a heap address, the heap maps addresses to
whole-second instants. -/

/-- A heap of time instants, indexed by address. -/
def Heap : Type := Nat → Int

/-- Write one instant into the heap. -/
def hwrite (h : Heap) (a : Nat) (v : Int) : Heap :=
  fun x => if x = a then v else h x

/-- TimeEntry with explicit pointers for the start and stop instants.
Fields that are plain values in Go are plain values here. -/
structure HTimeEntry where
  description : String
  stop : Option Nat
  start : Option Nat
  tags : List String
  duration : Int
deriving DecidableEq, Repr

/-- Copy from session.go over the heap model. The struct copy keeps the
pointer fields; the Tags slice is reallocated with equal contents; the
guarded writes go through the pointers of the new entry, which are the
pointers of the receiver. -/
def HTimeEntry.Copy (e : HTimeEntry) (h : Heap) : HTimeEntry × Heap :=
  let newEntry := { e with tags := e.tags ++ [] }
  let h1 :=
    match e.start, newEntry.start with
    | some a, some b => hwrite h b (h a)
    | _, _ => h
  let h2 :=
    match e.stop, newEntry.stop with
    | some a, some b => hwrite h1 b (h1 a)
    | _, _ => h1
  (newEntry, h2)

/-! ### UnstopTimeEntry

UnstopTimeEntry in session.go builds a creation request from the given
timer, submits it, and then deletes the original entry. The two remote
calls are external collaborators; the embedding takes their outcomes as
function arguments and keeps the exact control flow, together with a
flag recording whether the delete call was issued at all. -/

/-- timeEntryCreate from session.go (the creation request body). -/
structure timeEntryCreate where
  billable : Bool
  description : String
  duration : Int
  projectID : Option Int
  taskID : Option Int
  start : Option Int
  stop : Option Int
  tags : List String
  workspaceId : Int
deriving DecidableEq, Repr

/-- newStartEntryRequestData from session.go: duration -1, start now,
all other fields at their Go zero values. -/
def newStartEntryRequestData (description : String) (workspaceId : Int)
    (now : Int) : timeEntryCreate :=
  { duration := -1
    description := description
    start := some now
    workspaceId := workspaceId
    billable := false
    projectID := none
    taskID := none
    stop := none
    tags := [] }

/-- withMetadataFromTimeEntry from session.go: carries over project,
task, tags and the billable flag. -/
def timeEntryCreate.withMetadataFromTimeEntry (t : timeEntryCreate)
    (timeEntry : TimeEntry) : timeEntryCreate :=
  { t with
    projectID := timeEntry.pid
    taskID := timeEntry.tid
    tags := timeEntry.tags
    billable := timeEntry.billable }

/-- The request UnstopTimeEntry builds: start-entry data with the timer
metadata, then the start instant overwritten with the timer start. -/
def unstopRequest (timer : TimeEntry) (now : Int) : timeEntryCreate :=
  { (newStartEntryRequestData timer.description timer.wid now).withMetadataFromTimeEntry timer
    with start := timer.start }

/-- UnstopTimeEntry from session.go. startResult gives the outcome of the
remote creation for a request, deleteResult the outcome of the remote
delete for an entry. The Bool in the result records whether the delete
call was issued. On creation failure the error is returned and no delete
is issued; on delete failure the error is wrapped with the
old-entry-not-deleted context and the new entry is not returned. -/
def UnstopTimeEntry (timer : TimeEntry) (now : Int)
    (startResult : timeEntryCreate → Except String TimeEntry)
    (deleteResult : TimeEntry → Except String Unit) :
    Except String TimeEntry × Bool :=
  let entry := unstopRequest timer now
  match startResult entry with
  | .error e => (.error e, false)
  | .ok newEntry =>
    match deleteResult timer with
    | .error e => (.error ("old entry not deleted: " ++ e), true)
    | .ok _ => (.ok newEntry, true)

end Toggl

namespace Cache

/-- resource.Type from the resource package: the closed enumeration of
cache partition kinds. -/
inductive RType where
  | clients
  | projects
  | tags
  | timeEntries
deriving DecidableEq, Repr

/-- Association-list lookup, the embedding of a Go map read: none for a
missing key (and for a read from a nil map, which its caller encodes as
a failed outer lookup). -/
def alookup {α : Type} : List (Int × α) → Int → Option α
  | [], _ => none
  | (k, v) :: t, key => if k = key then some v else alookup t key

/-- Association-list store, the embedding of a Go map write: replace the
first binding of the key, append when absent. -/
def aset {α : Type} : List (Int × α) → Int → α → List (Int × α)
  | [], key, v => [(key, v)]
  | (k, w) :: t, key, v =>
    if k = key then (key, v) :: t else (k, w) :: aset t key v

/-- ResourcesCache from the cache package. caches is kind → optional
workspace partition (none models a nil Go map, some [] an allocated
empty one); each workspace partition maps workspace id → entity map.
stats is kind → (hits, misses); timestamp is the per-kind last-reset
instant; ttl the global time-to-live. Instants are Int seconds; the
mutex is dropped (all operations are modelled as atomic). -/
structure ResourcesCache (V : Type) where
  caches : RType → Option (List (Int × List (Int × V)))
  timestamp : RType → Int
  stats : RType → Nat × Nat
  ttl : Int

/-- New from the cache package: a zero ttl defaults to 5 minutes; every
kind gets a fresh timestamp, zero statistics and a cleared partition. -/
def ResourcesCache.New (V : Type) (ttl : Int) (now : Int) : ResourcesCache V :=
  { caches := fun _ => some []
    timestamp := fun _ => now
    stats := fun _ => (0, 0)
    ttl := if ttl = 0 then 5 * 60 else ttl }

/-- The statistics bump for the miss counter (stats[rt][misses]++). -/
def ResourcesCache.recordMiss {V : Type} (c : ResourcesCache V) (rt : RType) :
    ResourcesCache V :=
  { c with stats := fun r => if r = rt then ((c.stats rt).1, (c.stats rt).2 + 1) else c.stats r }

/-- The statistics bump for the hit counter (stats[rt][hits]++). -/
def ResourcesCache.recordHit {V : Type} (c : ResourcesCache V) (rt : RType) :
    ResourcesCache V :=
  { c with stats := fun r => if r = rt then ((c.stats rt).1 + 1, (c.stats rt).2) else c.stats r }

/-- expireCacheIf from the cache package: for every kind whose age
now - timestamp exceeds the ttl, the partition is replaced with a fresh
empty one and the timestamp reset to now. -/
def ResourcesCache.expireCacheIf {V : Type} (c : ResourcesCache V) (now : Int) :
    ResourcesCache V :=
  { c with
    caches := fun rt => if c.ttl < now - c.timestamp rt then some [] else c.caches rt
    timestamp := fun rt => if c.ttl < now - c.timestamp rt then now else c.timestamp rt }

/-- Get from the cache package: sweep, then miss on a nil kind partition
or a missing workspace sub-partition; otherwise the entity lookup is
returned as (data, ok) and the hit counter is bumped. -/
def ResourcesCache.Get {V : Type} (c : ResourcesCache V) (now : Int)
    (rt : RType) (wid : Int) (id : Int) :
    (Option V × Bool) × ResourcesCache V :=
  let c := c.expireCacheIf now
  match c.caches rt with
  | none => ((none, false), c.recordMiss rt)
  | some wm =>
    match alookup wm wid with
    | none => ((none, false), c.recordMiss rt)
    | some em =>
      let data := alookup em id
      ((data, data.isSome), c.recordHit rt)

/-- GetMap from the cache package: same miss rules as Get, returning the
whole workspace sub-partition on success. -/
def ResourcesCache.GetMap {V : Type} (c : ResourcesCache V) (now : Int)
    (rt : RType) (wid : Int) :
    (Option (List (Int × V)) × Bool) × ResourcesCache V :=
  let c := c.expireCacheIf now
  match c.caches rt with
  | none => ((none, false), c.recordMiss rt)
  | some wm =>
    match alookup wm wid with
    | none => ((none, false), c.recordMiss rt)
    | some em => ((some em, true), c.recordHit rt)

/-- GetList from the cache package: same miss rules as Get, returning the
values of the workspace sub-partition on success. -/
def ResourcesCache.GetList {V : Type} (c : ResourcesCache V) (now : Int)
    (rt : RType) (wid : Int) :
    (List V × Bool) × ResourcesCache V :=
  let c := c.expireCacheIf now
  match c.caches rt with
  | none => (([], false), c.recordMiss rt)
  | some wm =>
    match alookup wm wid with
    | none => (([], false), c.recordMiss rt)
    | some em => ((em.map (fun p => p.2), true), c.recordHit rt)

/-- Set from the cache package: lazily allocate the kind partition and
the workspace sub-partition, then bind the entity id. No sweep, no
statistics change, no timestamp change. -/
def ResourcesCache.Set {V : Type} (c : ResourcesCache V) (rt : RType)
    (wid : Int) (id : Int) (data : V) : ResourcesCache V :=
  let wm := match c.caches rt with | none => [] | some m => m
  let em := match alookup wm wid with | none => [] | some m => m
  { c with caches := fun r => if r = rt then some (aset wm wid (aset em id data)) else c.caches r }

/-- Clear from the cache package: the kind partition is replaced with a
fresh empty one; nothing else changes. -/
def ResourcesCache.Clear {V : Type} (c : ResourcesCache V) (rt : RType) :
    ResourcesCache V :=
  { c with caches := fun r => if r = rt then some [] else c.caches r }

/-- GetTTL from the cache package. -/
def ResourcesCache.GetTTL {V : Type} (c : ResourcesCache V) : Int :=
  c.ttl

/-- SetTTL from the cache package: store the new ttl, then sweep. -/
def ResourcesCache.SetTTL {V : Type} (c : ResourcesCache V) (ttl : Int)
    (now : Int) : ResourcesCache V :=
  ResourcesCache.expireCacheIf { c with ttl := ttl } now

/-- Iterated Get at fixed arguments, keeping only the cache state: the
shape of N consecutive Get calls. -/
def ResourcesCache.GetN {V : Type} (c : ResourcesCache V) (now : Int)
    (rt : RType) (wid : Int) (id : Int) : Nat → ResourcesCache V
  | 0 => c
  | n + 1 => ResourcesCache.GetN (c.Get now rt wid id).2 now rt wid id n

/-- True when a Get at these arguments would miss at the partition level
(nil kind partition or missing workspace sub-partition) after the sweep. -/
def ResourcesCache.widMissing {V : Type} (c : ResourcesCache V) (now : Int)
    (rt : RType) (wid : Int) : Bool :=
  match (c.expireCacheIf now).caches rt with
  | none => true
  | some wm => (alookup wm wid).isNone

end Cache

/-! ## Concrete inputs used by witnesses and counterexamples -/

namespace Toggl

/-- A stopped entry: duration 10, start 0, stop 10, two distinct tags. -/
def eStopped : TimeEntry :=
  { wid := 1, id := 2, pid := none, tid := some 9, description := "work",
    stop := some 10, start := some 0, tags := ["a", "b"], duration := 10,
    durOnly := false, billable := true }

/-- A running entry: duration -1, no stop instant. -/
def eRunning : TimeEntry :=
  { wid := 1, id := 3, pid := some 4, tid := none, description := "run",
    stop := none, start := some 2, tags := ["a"], duration := -1,
    durOnly := false, billable := false }

/-- A stopped entry whose start pointer is nil. -/
def eNoStart : TimeEntry :=
  { wid := 1, id := 4, pid := none, tid := none, description := "ns",
    stop := some 5, start := none, tags := [], duration := 5,
    durOnly := false, billable := false }

/-- A stopped entry whose stop pointer is nil. -/
def eNoStop : TimeEntry :=
  { wid := 1, id := 5, pid := none, tid := none, description := "np",
    stop := none, start := some 0, tags := [], duration := 5,
    durOnly := false, billable := false }

/-- The state reached from eStopped by the successful calls
SetDuration(-5) then SetStartTime(3, true). -/
def eSeqFinal : TimeEntry :=
  { wid := 1, id := 2, pid := none, tid := some 9, description := "work",
    stop := some (-5), start := some 3, tags := ["a", "b"], duration := -5,
    durOnly := false, billable := true }

/-- The state reached from eStopped by the successful call SetDuration(7). -/
def eAfterDur : TimeEntry :=
  { wid := 1, id := 2, pid := none, tid := some 9, description := "work",
    stop := some 7, start := some 0, tags := ["a", "b"], duration := 7,
    durOnly := false, billable := true }

/-- Heap-model entry whose start instant lives at address 0 and stop
instant at address 1. -/
def heW : HTimeEntry :=
  { description := "d", stop := some 1, start := some 0, tags := ["x"],
    duration := 5 }

/-- Heap holding 10 at address 0 and 20 everywhere else. -/
def hpW : Heap := fun a => if a = 0 then 10 else 20

/-- A remote creation that always succeeds with eRunning. -/
def srOk : timeEntryCreate → Except String TimeEntry := fun _ => .ok eRunning

/-- A remote creation that always fails. -/
def srFail : timeEntryCreate → Except String TimeEntry := fun _ => .error "boom"

/-- A remote delete that always succeeds. -/
def drOk : TimeEntry → Except String Unit := fun _ => .ok ()

/-- A remote delete that always fails. -/
def drFail : TimeEntry → Except String Unit := fun _ => .error "nope"

end Toggl

namespace Cache

/-- A cache whose projects partition holds workspace 5 with an empty
entity map, and whose other kind partitions are nil; nothing is expired
at instant 0. -/
def cMissW : ResourcesCache Int :=
  { caches := fun r => if r = RType.projects then some [(5, [])] else none,
    timestamp := fun _ => 0, stats := fun _ => (0, 0), ttl := 10 }

/-- A populated cache with nonzero statistics and timestamp 5. -/
def cClearW : ResourcesCache Int :=
  { caches := fun _ => some [(1, [(2, 7)])],
    timestamp := fun _ => 5, stats := fun _ => (3, 4), ttl := 10 }

/-- A populated cache with timestamp 0 and ttl 10: every kind is expired
at instant 11 and fresh at instant 5. -/
def cExpW : ResourcesCache Int :=
  { caches := fun _ => some [(1, [(2, 7)])],
    timestamp := fun _ => 0, stats := fun _ => (0, 0), ttl := 10 }

end Cache

/-! ## Helper lemmas on the tag index -/

namespace Toggl

theorem neg_one_le_indexOfTag (tag : String) (l : List String) :
    -1 ≤ indexOfTag tag l := by
  induction l with
  | nil => simp [indexOfTag]
  | cons t ts ih =>
    simp only [indexOfTag]
    split
    · omega
    · split
      · omega
      · omega

theorem indexOfTag_eq_neg_one_iff (tag : String) (l : List String) :
    indexOfTag tag l = -1 ↔ tag ∉ l := by
  induction l with
  | nil => simp [indexOfTag]
  | cons t ts ih =>
    simp only [indexOfTag]
    by_cases h : t = tag
    · subst h
      simp
    · have hb := neg_one_le_indexOfTag tag ts
      rw [if_neg h]
      by_cases hr : indexOfTag tag ts = -1
      · rw [if_pos hr]
        simp only [List.mem_cons]
        constructor
        · intro _ hc
          rcases hc with hc | hc
          · exact h hc.symm
          · exact (ih.mp hr) hc
        · intro _
          trivial
      · rw [if_neg hr]
        constructor
        · intro hc
          omega
        · intro hc
          exfalso
          exact hc (List.mem_cons_of_mem t (not_not.mp (fun hn => hr (ih.mpr hn))))

theorem hasTag_iff_mem (e : TimeEntry) (tag : String) :
    e.HasTag tag = true ↔ tag ∈ e.tags := by
  unfold TimeEntry.HasTag
  rw [bne_iff_ne, ne_eq, indexOfTag_eq_neg_one_iff, not_not]

theorem hasTag_eq_false_iff (e : TimeEntry) (tag : String) :
    e.HasTag tag = false ↔ tag ∉ e.tags := by
  rw [← Bool.not_eq_true, not_iff_not]
  exact hasTag_iff_mem e tag

theorem addTag_of_hasTag (e : TimeEntry) (tag : String)
    (h : e.HasTag tag = true) : e.AddTag tag = e := by
  unfold TimeEntry.AddTag
  rw [h]
  simp

theorem addTag_of_not_hasTag (e : TimeEntry) (tag : String)
    (h : e.HasTag tag = false) :
    e.AddTag tag = { e with tags := e.tags ++ [tag] } := by
  unfold TimeEntry.AddTag
  rw [h]
  simp

theorem take_drop_indexOfTag_eq_erase (tag : String) (l : List String)
    (h : tag ∈ l) :
    l.take (indexOfTag tag l).toNat ++ l.drop ((indexOfTag tag l).toNat + 1) =
      l.erase tag := by
  induction l with
  | nil => cases h
  | cons t ts ih =>
    by_cases ht : t = tag
    · subst ht
      simp [indexOfTag, List.erase_cons]
    · have hmem : tag ∈ ts := by
        rcases List.mem_cons.mp h with hc | hc
        · exact absurd hc.symm ht
        · exact hc
      have hr : indexOfTag tag ts ≠ -1 := fun hn =>
        (indexOfTag_eq_neg_one_iff tag ts).mp hn hmem
      have hge : 0 ≤ indexOfTag tag ts := by
        have := neg_one_le_indexOfTag tag ts
        omega
      have hval : indexOfTag tag (t :: ts) = indexOfTag tag ts + 1 := by
        simp only [indexOfTag]
        rw [if_neg ht, if_neg hr]
      have htn : (indexOfTag tag (t :: ts)).toNat = (indexOfTag tag ts).toNat + 1 := by
        rw [hval]; omega
      rw [htn]
      have hbeq : (t == tag) = false := by
        simpa using ht
      simp only [List.take_succ_cons, List.drop_succ_cons, List.erase_cons, hbeq,
        Bool.false_eq_true, if_false, List.cons_append]
      rw [ih hmem]

end Toggl

/-! ## Claim theorems -/

open Toggl Cache

/-- C9: on an entry whose tag list has no duplicates, adding a tag twice
leaves exactly one occurrence; AddTag is a no-op when the tag is present,
keeps the list duplicate-free, and preserves the order of existing tags;
RemoveTag is a no-op when the tag is absent, and removes the tag (HasTag
becomes false) when it is present. -/
theorem addTag_removeTag_idempotent (e : TimeEntry) (t : String)
    (h : e.tags.Nodup) :
    ((e.AddTag t).AddTag t).tags.count t = 1 ∧
    (e.HasTag t = true → e.AddTag t = e) ∧
    ((e.AddTag t).tags.Nodup) ∧
    ((e.AddTag t).tags = e.tags ∨ (e.AddTag t).tags = e.tags ++ [t]) ∧
    (e.HasTag t = false → e.RemoveTag t = e) ∧
    (e.HasTag t = true → (e.RemoveTag t).HasTag t = false) := by
  by_cases hmem : t ∈ e.tags
  · have hht : e.HasTag t = true := (hasTag_iff_mem e t).mpr hmem
    have hadd : e.AddTag t = e := addTag_of_hasTag e t hht
    refine ⟨?_, fun _ => hadd, ?_, ?_, ?_, ?_⟩
    · rw [hadd, hadd]
      exact List.count_eq_one_of_mem h hmem
    · rw [hadd]; exact h
    · left; rw [hadd]
    · intro hf
      rw [hht] at hf
      cases hf
    · intro _
      have hi : indexOfTag t e.tags ≠ -1 := fun hn =>
        (indexOfTag_eq_neg_one_iff t e.tags).mp hn hmem
      have hrem : (e.RemoveTag t).tags = e.tags.erase t := by
        unfold TimeEntry.RemoveTag
        rw [if_neg hi]
        exact take_drop_indexOfTag_eq_erase t e.tags hmem
      rw [hasTag_eq_false_iff]
      rw [hrem]
      have hcount : (e.tags.erase t).count t = 0 := by
        rw [List.count_erase_self, List.count_eq_one_of_mem h hmem]
      exact List.count_eq_zero.mp hcount
  · have hht : e.HasTag t = false := (hasTag_eq_false_iff e t).mpr hmem
    have hadd : (e.AddTag t).tags = e.tags ++ [t] := by
      rw [addTag_of_not_hasTag e t hht]
    have hmem2 : t ∈ (e.AddTag t).tags := by
      rw [hadd]; simp
    have hnodup2 : (e.AddTag t).tags.Nodup := by
      rw [hadd]
      refine List.nodup_append.mpr ⟨h, List.nodup_singleton t, ?_⟩
      intro a ha hb
      rw [List.mem_singleton] at hb
      subst hb
      exact hmem ha
    refine ⟨?_, ?_, hnodup2, Or.inr hadd, ?_, ?_⟩
    · have hht2 : (e.AddTag t).HasTag t = true := (hasTag_iff_mem _ t).mpr hmem2
      have hadd2 : (e.AddTag t).AddTag t = e.AddTag t :=
        addTag_of_hasTag (e.AddTag t) t hht2
      rw [hadd2, hadd, List.count_append]
      rw [List.count_eq_zero.mpr hmem]
      simp
    · intro hc
      rw [hht] at hc
      cases hc
    · intro _
      have hi : indexOfTag t e.tags = -1 :=
        (indexOfTag_eq_neg_one_iff t e.tags).mpr hmem
      unfold TimeEntry.RemoveTag
      rw [if_pos hi]
    · intro hc
      rw [hht] at hc
      cases hc

/-- Witness for C9 at a concrete entry. -/
theorem addTag_removeTag_idempotent_witness :
    ((eStopped.AddTag "x").AddTag "x").tags.count "x" = 1 :=
  (addTag_removeTag_idempotent eStopped "x" (by decide)).1

/-- C2 (code bug): Copy aliases the start and stop pointers instead of
duplicating the instants. At the concrete input, the copy of an entry
whose start instant lives at address 0 (value 10) keeps address 0 as its
start pointer, and writing 42 through the copy changes the instant the
original points to from 10 to 42. The source intends a deep copy (it
reallocates Tags and writes *newEntry.Start = *e.Start), but the struct
copy leaves the pointers shared, so that write is a no-op through the
alias. -/
theorem copy_start_stop_aliased :
    (heW.Copy hpW).1.start = heW.start ∧
    (heW.Copy hpW).1.stop = heW.stop ∧
    heW.start = some 0 ∧
    hpW 0 = 10 ∧
    (hwrite (heW.Copy hpW).2 0 42) 0 = 42 := by
  refine ⟨rfl, rfl, rfl, rfl, ?_⟩
  simp [hwrite]

/-- IsRunning only reads the duration, so updating the start pointer
does not change it. -/
theorem isRunning_update_start (e : TimeEntry) (t : Int) :
    ({ e with start := some t } : TimeEntry).IsRunning = e.IsRunning := rfl

/-- C4 (counterexample to the claim as stated): from the stopped entry
eStopped, the successful calls SetDuration(-5) then SetStartTime(3, true)
end at eSeqFinal, whose duration -5 differs from stop - start = -8: the
identity does not hold after every successful call of a sequence started
on a stopped entry, because a call may leave the entry running. -/
theorem stopped_identity_sequence_counterexample :
    eStopped.IsRunning = false ∧
    eStopped.start = some 0 ∧ eStopped.stop = some 10 ∧
    runOps eStopped [LifecycleOp.setDur (-5), LifecycleOp.setStart 3 true] =
      some eSeqFinal ∧
    eSeqFinal.start = some 3 ∧ eSeqFinal.stop = some (-5) ∧
    eSeqFinal.duration ≠ (-5) - 3 := by
  refine ⟨rfl, rfl, rfl, by decide, rfl, rfl, by decide⟩

/-- C4 (amended): any single successful SetDuration, SetStartTime or
SetStopTime call applied to an entry that is stopped at the moment of
the call re-establishes the identity duration = stop - start in whole
seconds; hence along a sequence of successful calls the identity holds
after every call made while the entry is stopped. -/
theorem stopped_identity_after_each_call (e : TimeEntry) (op : LifecycleOp)
    (e1 : TimeEntry) (hstop : e.IsRunning = false)
    (happ : applyOp e op = some e1) :
    ∃ s p, e1.start = some s ∧ e1.stop = some p ∧ e1.duration = p - s := by
  cases op with
  | setDur d =>
    simp only [applyOp, TimeEntry.SetDuration, hstop, Bool.false_eq_true,
      if_false] at happ
    cases hs : e.start with
    | none => rw [hs] at happ; cases happ
    | some s =>
      rw [hs] at happ
      simp only [Option.some.injEq] at happ
      refine ⟨s, s + d, ?_, ?_, ?_⟩ <;> rw [← happ] <;> simp [hs]
  | setStart t u =>
    have hrun : ({ e with start := some t } : TimeEntry).IsRunning = false :=
      (isRunning_update_start e t).trans hstop
    cases u with
    | true =>
      simp only [applyOp, TimeEntry.SetStartTime, hrun, Bool.false_eq_true,
        if_false, if_true, Option.some.injEq] at happ
      refine ⟨t, t + e.duration, ?_, ?_, ?_⟩ <;> rw [← happ] <;> simp
    | false =>
      simp only [applyOp, TimeEntry.SetStartTime, hrun, Bool.false_eq_true,
        if_false] at happ
      cases hp : e.stop with
      | none => rw [hp] at happ; cases happ
      | some p =>
        rw [hp] at happ
        simp only [Option.some.injEq] at happ
        refine ⟨t, p, ?_, ?_, ?_⟩ <;> rw [← happ] <;> simp [hp]
  | setStop t =>
    simp only [applyOp, TimeEntry.SetStopTime, hstop, Bool.false_eq_true,
      if_false] at happ
    cases hs : e.start with
    | none => rw [hs] at happ; cases happ
    | some s =>
      rw [hs] at happ
      simp only [Option.some.injEq] at happ
      refine ⟨s, t, ?_, ?_, ?_⟩ <;> rw [← happ] <;> simp [hs]

/-- Witness for the amended C4 at a concrete stopped entry and call. -/
theorem stopped_identity_after_each_call_witness :
    ∃ s p, eAfterDur.start = some s ∧ eAfterDur.stop = some p ∧
      eAfterDur.duration = p - s :=
  stopped_identity_after_each_call eStopped (.setDur 7) eAfterDur
    (by decide) (by decide)

/-- C5: on a running entry, SetDuration and SetStopTime return the
invalid-state error with the receiver unmodified; on a stopped entry
with start instant s, SetDuration d succeeds setting duration d and
stop s + d, and SetStopTime t succeeds setting stop t and duration
t - s. -/
theorem setDuration_setStopTime_running_vs_stopped
    (e : TimeEntry) (d t s : Int) :
    (e.IsRunning = true →
      e.SetDuration d = some (e, some "TimeEntry must be stopped") ∧
      e.SetStopTime t = some (e, some "TimeEntry must be stopped")) ∧
    (e.IsRunning = false → e.start = some s →
      e.SetDuration d = some ({ e with duration := d, stop := some (s + d) }, none) ∧
      e.SetStopTime t = some ({ e with stop := some t, duration := t - s }, none)) := by
  constructor
  · intro hr
    constructor <;> simp [TimeEntry.SetDuration, TimeEntry.SetStopTime, hr]
  · intro hr hs
    constructor <;>
      simp [TimeEntry.SetDuration, TimeEntry.SetStopTime, hr, hs]

/-- Witness for C5: both the running and the stopped branch at concrete
entries. -/
theorem setDuration_setStopTime_running_vs_stopped_witness :
    eRunning.SetDuration 4 = some (eRunning, some "TimeEntry must be stopped") ∧
    eStopped.SetDuration 4 =
      some ({ eStopped with duration := 4, stop := some (0 + 4) }, none) :=
  ⟨((setDuration_setStopTime_running_vs_stopped eRunning 4 0 0).1 (by decide)).1,
   ((setDuration_setStopTime_running_vs_stopped eStopped 4 0 0).2 (by decide) rfl).1⟩

/-- C6: SetStartTime returns no error; on a running entry only the start
instant changes; on a stopped entry with updateEnd the stop instant
becomes start + duration with the duration kept; on a stopped entry
without updateEnd and with stop instant p the duration becomes p - start
with the stop instant kept. -/
theorem setStartTime_branches (e : TimeEntry) (t p : Int) :
    (e.IsRunning = true →
      e.SetStartTime t true = some { e with start := some t } ∧
      e.SetStartTime t false = some { e with start := some t }) ∧
    (e.IsRunning = false →
      e.SetStartTime t true =
        some { e with start := some t, stop := some (t + e.duration) }) ∧
    (e.IsRunning = false → e.stop = some p →
      e.SetStartTime t false =
        some { e with start := some t, duration := p - t }) := by
  refine ⟨?_, ?_, ?_⟩
  · intro hr
    have hd : e.duration < 0 := by simpa [TimeEntry.IsRunning] using hr
    constructor <;> simp [TimeEntry.SetStartTime, TimeEntry.IsRunning, hd]
  · intro hr
    have hd : ¬e.duration < 0 := by simpa [TimeEntry.IsRunning] using hr
    simp [TimeEntry.SetStartTime, TimeEntry.IsRunning, hd]
  · intro hr hp
    have hd : ¬e.duration < 0 := by simpa [TimeEntry.IsRunning] using hr
    simp [TimeEntry.SetStartTime, TimeEntry.IsRunning, hd, hp]

/-- Witness for C6: the running branch and both stopped branches at
concrete entries. -/
theorem setStartTime_branches_witness :
    eRunning.SetStartTime 7 true = some { eRunning with start := some 7 } ∧
    eStopped.SetStartTime 7 true =
      some { eStopped with start := some 7, stop := some (7 + eStopped.duration) } ∧
    eStopped.SetStartTime 7 false =
      some { eStopped with start := some 7, duration := 10 - 7 } :=
  ⟨((setStartTime_branches eRunning 7 0).1 (by decide)).1,
   (setStartTime_branches eStopped 7 0).2.1 (by decide),
   (setStartTime_branches eStopped 7 10).2.2 (by decide) rfl⟩

/-- C10: on a stopped entry the mutators panic (none) exactly when the
instant they dereference is nil: SetDuration and SetStopTime need the
start instant, SetStartTime with updateEnd false needs the stop instant;
with the needed instant present they succeed. -/
theorem mutators_nil_instant_panic (e : TimeEntry) (d t s p : Int) :
    (e.IsRunning = false → e.start = none → e.SetDuration d = none) ∧
    (e.IsRunning = false → e.stop = none → e.SetStartTime t false = none) ∧
    (e.IsRunning = false → e.start = none → e.SetStopTime t = none) ∧
    (e.IsRunning = false → e.start = some s →
      (e.SetDuration d).isSome = true ∧ (e.SetStopTime t).isSome = true) ∧
    (e.IsRunning = false → e.stop = some p →
      (e.SetStartTime t false).isSome = true) := by
  refine ⟨?_, ?_, ?_, ?_, ?_⟩
  · intro hr hs
    simp [TimeEntry.SetDuration, hr, hs]
  · intro hr hp
    have hd : ¬e.duration < 0 := by simpa [TimeEntry.IsRunning] using hr
    simp [TimeEntry.SetStartTime, TimeEntry.IsRunning, hd, hp]
  · intro hr hs
    simp [TimeEntry.SetStopTime, hr, hs]
  · intro hr hs
    constructor <;> simp [TimeEntry.SetDuration, TimeEntry.SetStopTime, hr, hs]
  · intro hr hp
    have hd : ¬e.duration < 0 := by simpa [TimeEntry.IsRunning] using hr
    simp [TimeEntry.SetStartTime, TimeEntry.IsRunning, hd, hp]

/-- Witness for C10 at concrete entries with nil instants. -/
theorem mutators_nil_instant_panic_witness :
    eNoStart.SetDuration 3 = none ∧
    eNoStop.SetStartTime 3 false = none ∧
    eNoStart.SetStopTime 3 = none :=
  ⟨(mutators_nil_instant_panic eNoStart 3 3 0 0).1 (by decide) rfl,
   (mutators_nil_instant_panic eNoStop 3 3 0 0).2.1 (by decide) rfl,
   (mutators_nil_instant_panic eNoStart 3 3 0 0).2.2.1 (by decide) rfl⟩

/-- C8: the unstop request copies description, workspace, project, task,
tags and the billable flag from the timer, and its start is the timer
start; when creation fails the error is returned and no delete is
issued; when creation succeeds but the delete fails the result is the
wrapped old-entry-not-deleted error (not a silent success, and the
creation is not rolled back); when both succeed the new entry is
returned. -/
theorem unstopTimeEntry_spec (timer : TimeEntry) (now : Int)
    (startResult : timeEntryCreate → Except String TimeEntry)
    (deleteResult : TimeEntry → Except String Unit) :
    ((unstopRequest timer now).description = timer.description ∧
     (unstopRequest timer now).workspaceId = timer.wid ∧
     (unstopRequest timer now).projectID = timer.pid ∧
     (unstopRequest timer now).taskID = timer.tid ∧
     (unstopRequest timer now).tags = timer.tags ∧
     (unstopRequest timer now).billable = timer.billable ∧
     (unstopRequest timer now).start = timer.start) ∧
    (∀ msg, startResult (unstopRequest timer now) = .error msg →
      UnstopTimeEntry timer now startResult deleteResult = (.error msg, false)) ∧
    (∀ newEntry msg, startResult (unstopRequest timer now) = .ok newEntry →
      deleteResult timer = .error msg →
      UnstopTimeEntry timer now startResult deleteResult =
        (.error ("old entry not deleted: " ++ msg), true)) ∧
    (∀ newEntry, startResult (unstopRequest timer now) = .ok newEntry →
      deleteResult timer = .ok () →
      UnstopTimeEntry timer now startResult deleteResult =
        (.ok newEntry, true)) := by
  refine ⟨⟨rfl, rfl, rfl, rfl, rfl, rfl, rfl⟩, ?_, ?_, ?_⟩
  · intro msg h
    simp [UnstopTimeEntry, h]
  · intro newEntry msg h1 h2
    simp [UnstopTimeEntry, h1, h2]
  · intro newEntry h1 h2
    simp [UnstopTimeEntry, h1, h2]

/-- Witness for C8: the delete-failure branch at concrete collaborators. -/
theorem unstopTimeEntry_spec_witness :
    UnstopTimeEntry eStopped 0 srOk drFail =
      (.error ("old entry not deleted: " ++ "nope"), true) :=
  (unstopTimeEntry_spec eStopped 0 srOk drFail).2.2.1 eRunning "nope" rfl rfl

/-! ## Cache helper lemmas -/

namespace Cache

theorem expireCacheIf_caches {V : Type} (c : ResourcesCache V) (now : Int)
    (rt : RType) :
    (c.expireCacheIf now).caches rt =
      if c.ttl < now - c.timestamp rt then some [] else c.caches rt := rfl

theorem expireCacheIf_timestamp {V : Type} (c : ResourcesCache V) (now : Int)
    (rt : RType) :
    (c.expireCacheIf now).timestamp rt =
      if c.ttl < now - c.timestamp rt then now else c.timestamp rt := rfl

theorem expireCacheIf_stats {V : Type} (c : ResourcesCache V) (now : Int) :
    (c.expireCacheIf now).stats = c.stats := rfl

theorem expireCacheIf_ttl {V : Type} (c : ResourcesCache V) (now : Int) :
    (c.expireCacheIf now).ttl = c.ttl := rfl

theorem recordMiss_stats_self {V : Type} (c : ResourcesCache V) (rt : RType) :
    (c.recordMiss rt).stats rt = ((c.stats rt).1, (c.stats rt).2 + 1) := by
  simp [ResourcesCache.recordMiss]

theorem recordHit_stats_self {V : Type} (c : ResourcesCache V) (rt : RType) :
    (c.recordHit rt).stats rt = ((c.stats rt).1 + 1, (c.stats rt).2) := by
  simp [ResourcesCache.recordHit]

theorem widMissing_recordMiss {V : Type} (c : ResourcesCache V) (now : Int)
    (rt rt2 : RType) (wid : Int) :
    ((c.recordMiss rt2).widMissing now rt wid) = c.widMissing now rt wid := rfl

theorem widMissing_expireCacheIf {V : Type} (c : ResourcesCache V) (now : Int)
    (rt : RType) (wid : Int) (h : c.widMissing now rt wid = true) :
    (c.expireCacheIf now).widMissing now rt wid = true := by
  unfold ResourcesCache.widMissing at h ⊢
  simp only [expireCacheIf_caches, expireCacheIf_ttl, expireCacheIf_timestamp] at h ⊢
  split_ifs at h ⊢ <;> first | simp [alookup] | exact h

theorem get_miss_step {V : Type} (c : ResourcesCache V) (now : Int)
    (rt : RType) (wid id : Int) (h : c.widMissing now rt wid = true) :
    (c.Get now rt wid id).1 = (none, false) ∧
    ((c.Get now rt wid id).2).stats rt = ((c.stats rt).1, (c.stats rt).2 + 1) ∧
    ((c.Get now rt wid id).2).widMissing now rt wid = true := by
  unfold ResourcesCache.widMissing at h
  cases hc : (c.expireCacheIf now).caches rt with
  | none =>
    have hget : c.Get now rt wid id =
        ((none, false), (c.expireCacheIf now).recordMiss rt) := by
      simp only [ResourcesCache.Get, hc]
    rw [hget]
    refine ⟨rfl, ?_, ?_⟩
    · rw [recordMiss_stats_self]
      rfl
    · rw [widMissing_recordMiss]
      exact widMissing_expireCacheIf c now rt wid h
  | some wm =>
    rw [hc] at h
    have halw : alookup wm wid = none := Option.isNone_iff_eq_none.mp h
    have hget : c.Get now rt wid id =
        ((none, false), (c.expireCacheIf now).recordMiss rt) := by
      simp only [ResourcesCache.Get, hc, halw]
    rw [hget]
    refine ⟨rfl, ?_, ?_⟩
    · rw [recordMiss_stats_self]
      rfl
    · rw [widMissing_recordMiss]
      apply widMissing_expireCacheIf
      unfold ResourcesCache.widMissing
      rw [hc]
      exact h

theorem getN_partition_miss {V : Type} (now : Int) (rt : RType)
    (wid id : Int) (n : Nat) :
    ∀ c : ResourcesCache V, c.widMissing now rt wid = true →
      (c.GetN now rt wid id n).stats rt =
        ((c.stats rt).1, (c.stats rt).2 + n) := by
  induction n with
  | zero =>
    intro c _
    simp [ResourcesCache.GetN]
  | succ n ih =>
    intro c h
    have hstep := get_miss_step c now rt wid id h
    have hrec := ih (c.Get now rt wid id).2 hstep.2.2
    unfold ResourcesCache.GetN
    rw [hrec, hstep.2.1]
    simp [Nat.add_assoc, Nat.add_comm 1 n]

end Cache

open Cache

/-- C1 (counterexample to the claim as stated): on a cache whose projects
partition holds workspace 5 with an empty entity map, Get for the absent
id 7 returns found=false, yet the statistics for projects become (1, 0):
the HIT counter is incremented and the miss counter is left unchanged,
where the claim demands a miss increment (0, 1). The source bumps
stats[rt][hits] whenever both partitions exist, before inspecting the ok
flag of the entity lookup. -/
theorem get_absent_id_records_hit :
    (cMissW.Get 0 RType.projects 5 7).1 = (none, false) ∧
    ((cMissW.Get 0 RType.projects 5 7).2).stats RType.projects = (1, 0) := by
  constructor <;> decide

/-- C1 (amended): Get returns found=false and increments the miss counter
when the kind has no partition or the workspace has no sub-partition
(after the sweep); when both exist it returns the stored lookup with
found mirroring presence of the id and increments the HIT counter even
when the id is absent; and N consecutive Get calls that miss at the
partition level increment the miss counter by N and leave the hit
counter unchanged. -/
theorem get_accounting (V : Type) (c : ResourcesCache V) (now : Int)
    (rt : RType) (wid id : Int) :
    ((c.expireCacheIf now).caches rt = none →
      (c.Get now rt wid id).1 = (none, false) ∧
      ((c.Get now rt wid id).2).stats rt = ((c.stats rt).1, (c.stats rt).2 + 1)) ∧
    (∀ wm, (c.expireCacheIf now).caches rt = some wm → alookup wm wid = none →
      (c.Get now rt wid id).1 = (none, false) ∧
      ((c.Get now rt wid id).2).stats rt = ((c.stats rt).1, (c.stats rt).2 + 1)) ∧
    (∀ wm em, (c.expireCacheIf now).caches rt = some wm →
      alookup wm wid = some em →
      (c.Get now rt wid id).1 = (alookup em id, (alookup em id).isSome) ∧
      ((c.Get now rt wid id).2).stats rt = ((c.stats rt).1 + 1, (c.stats rt).2)) ∧
    (∀ n : Nat, c.widMissing now rt wid = true →
      (c.GetN now rt wid id n).stats rt = ((c.stats rt).1, (c.stats rt).2 + n)) := by
  refine ⟨?_, ?_, ?_, ?_⟩
  · intro hc
    have hget : c.Get now rt wid id =
        ((none, false), (c.expireCacheIf now).recordMiss rt) := by
      simp only [ResourcesCache.Get, hc]
    rw [hget]
    exact ⟨rfl, by rw [recordMiss_stats_self]; rfl⟩
  · intro wm hc halw
    have hget : c.Get now rt wid id =
        ((none, false), (c.expireCacheIf now).recordMiss rt) := by
      simp only [ResourcesCache.Get, hc, halw]
    rw [hget]
    exact ⟨rfl, by rw [recordMiss_stats_self]; rfl⟩
  · intro wm em hc halw
    have hget : c.Get now rt wid id =
        ((alookup em id, (alookup em id).isSome),
          (c.expireCacheIf now).recordHit rt) := by
      simp only [ResourcesCache.Get, hc, halw]
    rw [hget]
    exact ⟨rfl, by rw [recordHit_stats_self]; rfl⟩
  · intro n h
    exact getN_partition_miss now rt wid id n c h

/-- Witness for the amended C1: a partition-level miss and two iterated
misses on a concrete cache. -/
theorem get_accounting_witness :
    (cMissW.Get 0 RType.clients 5 7).1 = (none, false) ∧
    ((cMissW.Get 0 RType.clients 5 7).2).stats RType.clients =
      ((cMissW.stats RType.clients).1, (cMissW.stats RType.clients).2 + 1) ∧
    (cMissW.GetN 0 RType.clients 5 7 2).stats RType.clients =
      ((cMissW.stats RType.clients).1, (cMissW.stats RType.clients).2 + 2) :=
  ⟨((get_accounting Int cMissW 0 RType.clients 5 7).1 (by decide)).1,
   ((get_accounting Int cMissW 0 RType.clients 5 7).1 (by decide)).2,
   (get_accounting Int cMissW 0 RType.clients 5 7).2.2.2 2 (by decide)⟩

/-- C3 (counterexample to the claim as stated): on a concrete cache whose
projects timestamp is 5, Clear(projects) empties the projects partition
but leaves the projects last-reset timestamp at 5 — in particular it is
not reset to the time of the clear (for a clear at instant 99 the claim
demands 99). Clear in the source touches only the partition map. -/
theorem clear_leaves_timestamp :
    cClearW.timestamp RType.projects = 5 ∧
    (cClearW.Clear RType.projects).caches RType.projects = some [] ∧
    (cClearW.Clear RType.projects).timestamp RType.projects = 5 ∧
    (cClearW.Clear RType.projects).timestamp RType.projects ≠ 99 := by
  refine ⟨by decide, by decide, by decide, by decide⟩

/-- C3 (amended): Clear(k) empties exactly kind k's partition, leaving
every other kind's partition, every kind's timestamp (including kind k's,
which is NOT reset), every kind's statistics and the ttl unchanged; Set
never changes any kind's timestamp or statistics. -/
theorem clear_set_frame (V : Type) (c : ResourcesCache V) (rt rt2 : RType)
    (wid id : Int) (v : V) :
    (c.Clear rt).caches rt = some [] ∧
    (rt2 ≠ rt → (c.Clear rt).caches rt2 = c.caches rt2) ∧
    (c.Clear rt).timestamp = c.timestamp ∧
    (c.Clear rt).stats = c.stats ∧
    (c.Clear rt).ttl = c.ttl ∧
    (c.Set rt wid id v).timestamp = c.timestamp ∧
    (c.Set rt wid id v).stats = c.stats := by
  refine ⟨?_, ?_, rfl, rfl, rfl, rfl, rfl⟩
  · simp [ResourcesCache.Clear]
  · intro h
    simp [ResourcesCache.Clear, h]

/-- Witness for the amended C3 at a concrete cache and distinct kinds. -/
theorem clear_set_frame_witness :
    (cClearW.Clear RType.projects).caches RType.tags =
      cClearW.caches RType.tags :=
  (clear_set_frame Int cClearW RType.projects RType.tags 1 2 7).2.1 (by decide)

/-- C7: the sweep runs inside every read-class operation and inside
SetTTL; a kind whose age now - timestamp exceeds the ttl has its whole
partition replaced by an empty one and its timestamp reset to now, so
Get, GetMap and GetList on it right after expiry return found=false; a
kind that is not expired keeps its partition and timestamp; and SetTTL
with a smaller ttl immediately clears every kind already older than the
new ttl. -/
theorem ttl_expiry_sweep (V : Type) (c : ResourcesCache V) (now ttl2 : Int)
    (rt rt2 : RType) (wid id : Int) :
    (c.ttl < now - c.timestamp rt →
      (c.expireCacheIf now).caches rt = some [] ∧
      (c.expireCacheIf now).timestamp rt = now ∧
      (c.Get now rt wid id).1 = (none, false) ∧
      (c.GetMap now rt wid).1 = (none, false) ∧
      (c.GetList now rt wid).1 = ([], false)) ∧
    (¬c.ttl < now - c.timestamp rt2 →
      (c.expireCacheIf now).caches rt2 = c.caches rt2 ∧
      (c.expireCacheIf now).timestamp rt2 = c.timestamp rt2) ∧
    (ttl2 < now - c.timestamp rt → (c.SetTTL ttl2 now).caches rt = some []) := by
  refine ⟨?_, ?_, ?_⟩
  · intro h
    have hc : (c.expireCacheIf now).caches rt = some [] := by
      rw [expireCacheIf_caches, if_pos h]
    have ht : (c.expireCacheIf now).timestamp rt = now := by
      rw [expireCacheIf_timestamp, if_pos h]
    refine ⟨hc, ht, ?_, ?_, ?_⟩ <;>
      simp only [ResourcesCache.Get, ResourcesCache.GetMap,
        ResourcesCache.GetList, hc] <;>
      simp [alookup]
  · intro h
    exact ⟨by rw [expireCacheIf_caches, if_neg h],
      by rw [expireCacheIf_timestamp, if_neg h]⟩
  · intro h
    simp [ResourcesCache.SetTTL, expireCacheIf_caches, h]

/-- Witness for C7: an expired read, an unexpired kind, and a ttl
shrink, all on a concrete cache. -/
theorem ttl_expiry_sweep_witness :
    (cExpW.Get 11 RType.tags 1 2).1 = (none, false) ∧
    (cExpW.expireCacheIf 5).caches RType.tags = cExpW.caches RType.tags ∧
    (cExpW.SetTTL 3 5).caches RType.tags = some [] :=
  ⟨((ttl_expiry_sweep Int cExpW 11 3 RType.tags RType.tags 1 2).1 (by decide)).2.2.1,
   ((ttl_expiry_sweep Int cExpW 5 3 RType.tags RType.tags 1 2).2.1 (by decide)).1,
   (ttl_expiry_sweep Int cExpW 5 3 RType.tags RType.tags 1 2).2.2 (by decide)⟩
